import Mathlib

/-!
Verification development for the `rc-auth` crate of the rauncher-mc
repository: a shallow embedding in Lean 4 of its crypto primitive,
key manager, session model, token stores and auth-client logic,
together with theorems settling the behavioural claims about them.

Bytes are modelled as `Nat` values together with the validity
predicate `byteValid` (every element below 256).  External library
primitives (the aes-gcm AEAD and serde-json serialization) are
modelled symbolically: the AEAD is an idealised authenticated
encryption whose ciphertext determines key, nonce and AAD exactly,
and serialization is an injective byte encoding with a proven parse
inverse.  Everything else is translated directly from the Rust
source of the crate.
-/

namespace RcAuth

/-- Predicate: every element of the list is a byte value (below 256). -/
def byteValid (bs : List Nat) : Prop := ∀ b ∈ bs, b < 256

instance (bs : List Nat) : Decidable (byteValid bs) := by
  unfold byteValid; infer_instance

/-! ## Variable-length quantity encoding

A prefix-free byte encoding of natural numbers (little-endian base
128, high bit marks continuation), used by the symbolic models of
serialization and of the AEAD to delimit variable-length fields. -/

/-- Fuel-driven worker for `vlq`; structural recursion on the fuel
keeps it reducible by evaluation.  The fuel never runs out when it
starts above the encoded number. -/
def vlqAux : Nat → Nat → List Nat
  | 0, _ => []
  | fuel + 1, n =>
    if n < 128 then [n] else (n % 128 + 128) :: vlqAux fuel (n / 128)

/-- Encode a natural number as a prefix-free byte sequence. -/
def vlq (n : Nat) : List Nat := vlqAux (n + 1) n

/-- Parse a VLQ-encoded number from the front of a byte list,
returning the number and the remaining bytes. -/
def vlqParse : List Nat → Option (Nat × List Nat)
  | [] => none
  | b :: rest =>
    if b < 128 then some (b, rest)
    else
      match vlqParse rest with
      | some (n, rest2) => some (b - 128 + 128 * n, rest2)
      | none => none

/-! ## Byte serialization of strings

Injective byte encoding of strings (each character code point in
VLQ form), a symbolic stand-in for the UTF-8 serialization used by
the Rust source; only injectivity and the parse inverse matter for
the claims. -/

/-- Encode a character list as bytes, one VLQ code point each. -/
def charsBytes : List Char → List Nat
  | [] => []
  | c :: cs => vlq c.toNat ++ charsBytes cs

/-- Byte serialization of a string. -/
def strBytes (s : String) : List Nat := charsBytes s.data

/-- Parse exactly `n` characters from the front of a byte list. -/
def decChars : Nat → List Nat → Option (List Char × List Nat)
  | 0, bs => some ([], bs)
  | n + 1, bs =>
    match vlqParse bs with
    | some (v, rest) =>
      match decChars n rest with
      | some (cs, rest2) => some (Char.ofNat v :: cs, rest2)
      | none => none
    | none => none

/-! ## Base64url (no padding)

Model of the `base64` crate engine `URL_SAFE_NO_PAD` used by
`crypto.rs`: RFC 4648 URL-safe alphabet, no padding characters;
decoding rejects characters outside the alphabet, an input length
congruent to 1 modulo 4, and nonzero trailing bits. -/

/-- Regroup bytes (8-bit values) into sextets (6-bit values), most
significant bits first, zero-padding the final sextet. -/
def bytesToSextets : List Nat → List Nat
  | [] => []
  | [b] => [b / 4, b % 4 * 16]
  | [b0, b1] => [b0 / 4, b0 % 4 * 16 + b1 / 16, b1 % 16 * 4]
  | b0 :: b1 :: b2 :: rest =>
    (b0 / 4) :: (b0 % 4 * 16 + b1 / 16) :: (b1 % 16 * 4 + b2 / 64) :: (b2 % 64)
      :: bytesToSextets rest

/-- Regroup sextets back into bytes; fails on an impossible length
(1 modulo 4) or nonzero padding bits in the final sextet. -/
def sextetsToBytes : List Nat → Option (List Nat)
  | [] => some []
  | [_] => none
  | [s0, s1] => if s1 % 16 = 0 then some [s0 * 4 + s1 / 16] else none
  | [s0, s1, s2] =>
    if s2 % 4 = 0 then some [s0 * 4 + s1 / 16, s1 % 16 * 16 + s2 / 4] else none
  | s0 :: s1 :: s2 :: s3 :: rest =>
    match sextetsToBytes rest with
    | some bs =>
      some ((s0 * 4 + s1 / 16) :: (s1 % 16 * 16 + s2 / 4) :: (s2 % 4 * 64 + s3) :: bs)
    | none => none

/-- The URL-safe base64 alphabet, indexed by sextet value. -/
def b64Alphabet : List Char :=
  [ 'A', 'B', 'C', 'D', 'E', 'F', 'G', 'H', 'I', 'J', 'K', 'L', 'M',
    'N', 'O', 'P', 'Q', 'R', 'S', 'T', 'U', 'V', 'W', 'X', 'Y', 'Z',
    'a', 'b', 'c', 'd', 'e', 'f', 'g', 'h', 'i', 'j', 'k', 'l', 'm',
    'n', 'o', 'p', 'q', 'r', 's', 't', 'u', 'v', 'w', 'x', 'y', 'z',
    '0', '1', '2', '3', '4', '5', '6', '7', '8', '9', '-', '_' ]

/-- Character for a sextet value. -/
def b64Char (v : Nat) : Char := b64Alphabet.getD v 'A'

/-- Sextet value of a character; `none` outside the alphabet. -/
def b64Val (c : Char) : Option Nat :=
  if 'A' ≤ c ∧ c ≤ 'Z' then some (c.toNat - 65)
  else if 'a' ≤ c ∧ c ≤ 'z' then some (c.toNat - 97 + 26)
  else if '0' ≤ c ∧ c ≤ '9' then some (c.toNat - 48 + 52)
  else if c = '-' then some 62
  else if c = '_' then some 63
  else none

/-- Decode a character list into sextet values. -/
def sextetsOfChars : List Char → Option (List Nat)
  | [] => some []
  | c :: cs =>
    match b64Val c, sextetsOfChars cs with
    | some v, some vs => some (v :: vs)
    | _, _ => none

/-- Base64url-encode a byte list (no padding). -/
def base64urlEncode (bs : List Nat) : String :=
  ((bytesToSextets bs).map b64Char).asString

/-- Base64url-decode a string (no padding); `none` on any invalid
character, impossible length, or nonzero trailing bits. -/
def base64urlDecode (s : String) : Option (List Nat) :=
  match sextetsOfChars s.data with
  | some sextets => sextetsToBytes sextets
  | none => none

/-! ## Symbolic AES-256-GCM

Idealised model of the `aes_gcm` crate primitive used by
`crypto.rs`.  A sealed ciphertext records exactly the key, nonce,
AAD and message that produced it (the AAD length-prefixed so that
fields never run into each other), and opening succeeds exactly
when key, nonce and AAD all match — the perfect-authentication
idealisation of the real AEAD, whose failure on any mismatch holds
with overwhelming probability. -/

/-- Seal a message under key, nonce and additional authenticated
data.  Symbolic counterpart of `Aes256Gcm::encrypt`. -/
def gcmSeal (key nonce aad msg : List Nat) : List Nat :=
  key ++ nonce ++ vlq aad.length ++ aad ++ msg

/-- Open a sealed ciphertext, checking key, nonce and AAD.
Symbolic counterpart of `Aes256Gcm::decrypt`; `none` is the
authentication failure. -/
def gcmOpen (key nonce aad ct : List Nat) : Option (List Nat) :=
  let key2 := ct.take 32
  let r1 := ct.drop 32
  let nonce2 := r1.take 12
  let r2 := r1.drop 12
  match vlqParse r2 with
  | none => none
  | some (n, r3) =>
    if key2 = key ∧ nonce2 = nonce ∧ n = aad.length ∧ r3.take n = aad then
      some (r3.drop n)
    else none

/-! ## Errors (`errors.rs`) -/

/-- XSTS-specific error codes from the XErr field
(`errors.rs::XstsError`). -/
inductive XstsError where
  | NoXboxAccount
  | RegionNotSupported
  | AdultVerificationRequired
  | ChildAccountRequiresFamily
  | Unknown (code : Nat)
  deriving DecidableEq

/-- Parse an XErr code from an XSTS response
(`errors.rs::XstsError::from_xerr`); first-match semantics of the
Rust `match` rendered as an if chain. -/
def XstsError.from_xerr (code : Nat) : XstsError :=
  if code = 2148916233 then XstsError.NoXboxAccount
  else if code = 2148916235 then XstsError.RegionNotSupported
  else if code = 2148916236 ∨ code = 2148916237 then XstsError.AdultVerificationRequired
  else if code = 2148916238 then XstsError.ChildAccountRequiresFamily
  else XstsError.Unknown code

/-- Error taxonomy of the crate (`errors.rs::RcAuthError`); payload
details irrelevant to the claims (status codes, source errors) are
reduced to strings. -/
inductive RcAuthError where
  | UserCancelled
  | Network (msg : String)
  | Http (status : Nat) (body_snippet : String)
  | OAuthInvalidGrant
  | XblBadRequest
  | XstsDenied (e : XstsError)
  | MinecraftProfileNotFound
  | InvalidRedirect
  | StateMismatch
  | Serde (msg : String)
  | UrlParse (msg : String)
  | MissingRefreshToken
  | InvalidResponse (msg : String)
  | StorageIo (msg : String)
  | Crypto (msg : String)
  | Keyring (msg : String)
  | CorruptedStore
  | LockTimeout
  | Base64 (msg : String)
  deriving DecidableEq

/-! ## Crypto primitive (`crypto.rs`) -/

/-- Encrypted data with nonce and authentication tag
(`crypto.rs::EncryptedBlob`). -/
structure EncryptedBlob where
  /-- Base64url-encoded nonce (12 bytes). -/
  nonce : String
  /-- Base64url-encoded ciphertext plus tag. -/
  ciphertext : String
  /-- Additional authenticated data version. -/
  aad_version : String
  deriving DecidableEq

/-- Build the blob produced by `crypto.rs::encrypt`.  The random
96-bit nonce drawn from `OsRng` is passed in as `nonceBytes`; the
AAD is the string `rc-auth|v1|` followed by the account key. -/
def encryptBlob (key nonceBytes plaintext : List Nat) (account_key : String) :
    EncryptedBlob :=
  let aad_version := "v1"
  let aad := "rc-auth|" ++ aad_version ++ "|" ++ account_key
  let ciphertext := gcmSeal key nonceBytes (strBytes aad) plaintext
  { nonce := base64urlEncode nonceBytes
    ciphertext := base64urlEncode ciphertext
    aad_version := aad_version }

/-- Encrypt plaintext using AES-256-GCM (`crypto.rs::encrypt`).
The underlying AEAD never fails on sealing, so the result is
always `ok`. -/
def encrypt (key nonceBytes plaintext : List Nat) (account_key : String) :
    Except RcAuthError EncryptedBlob :=
  Except.ok (encryptBlob key nonceBytes plaintext account_key)

/-- Decrypt ciphertext using AES-256-GCM (`crypto.rs::decrypt`):
base64-decode the nonce (failure is a `Crypto` error), reject a
nonce of length other than 12 (`CorruptedStore`), base64-decode
the ciphertext (failure is a `Crypto` error), rebuild the AAD from
the stored version and the supplied account key, and open the
AEAD (failure is `CorruptedStore`). -/
def decrypt (key : List Nat) (blob : EncryptedBlob) (account_key : String) :
    Except RcAuthError (List Nat) :=
  match base64urlDecode blob.nonce with
  | none => Except.error (RcAuthError.Crypto "Invalid nonce")
  | some nonce_bytes =>
    if nonce_bytes.length ≠ 12 then Except.error RcAuthError.CorruptedStore
    else
      match base64urlDecode blob.ciphertext with
      | none => Except.error (RcAuthError.Crypto "Invalid ciphertext")
      | some ciphertext =>
        let aad := "rc-auth|" ++ blob.aad_version ++ "|" ++ account_key
        match gcmOpen key nonce_bytes (strBytes aad) ciphertext with
        | none => Except.error RcAuthError.CorruptedStore
        | some plaintext => Except.ok plaintext

/-! ## Session and token model (`session.rs`, `models.rs`, `config.rs`)

Timestamps (`chrono::DateTime<Utc>`) are modelled as integer
seconds; `Utc::now()` becomes an explicit `now` argument. -/

/-- Time skew for token expiration, in seconds
(`config.rs::TOKEN_EXPIRY_SKEW`, refresh 5 minutes early). -/
def TOKEN_EXPIRY_SKEW : Int := 300

/-- Microsoft OAuth tokens (`session.rs::MsTokens`). -/
structure MsTokens where
  access_token : String
  refresh_token : Option String
  expires_at : Int
  deriving DecidableEq

/-- Constructor `MsTokens::new`: expiry is capture time plus
`expires_in` seconds. -/
def MsTokens.new (access_token : String) (refresh_token : Option String)
    (expires_in : Nat) (now : Int) : MsTokens :=
  { access_token := access_token
    refresh_token := refresh_token
    expires_at := now + expires_in }

/-- Expiry check `MsTokens::is_expired`: `Utc::now() >= expires_at`,
with no skew. -/
def MsTokens.is_expired (t : MsTokens) (now : Int) : Bool :=
  t.expires_at ≤ now

/-- Xbox Live token (`session.rs::XblToken`). -/
structure XblToken where
  token : String
  uhs : String
  not_after : Option String
  deriving DecidableEq

/-- XSTS token (`session.rs::XstsToken`). -/
structure XstsToken where
  token : String
  uhs : String
  not_after : Option String
  deriving DecidableEq

/-- Minecraft access token (`session.rs::McToken`). -/
structure McToken where
  access_token : String
  expires_at : Int
  deriving DecidableEq

/-- Constructor `McToken::new`. -/
def McToken.new (access_token : String) (expires_in : Nat) (now : Int) : McToken :=
  { access_token := access_token, expires_at := now + expires_in }

/-- Expiry check `McToken::is_expired`:
`Utc::now() + TOKEN_EXPIRY_SKEW >= expires_at` (the
`Duration::from_std` conversion of the 300-second skew never fails,
so the `unwrap_or` branch is the same constant). -/
def McToken.is_expired (t : McToken) (now : Int) : Bool :=
  t.expires_at ≤ now + TOKEN_EXPIRY_SKEW

/-- Minecraft skin (`models.rs::McSkin`). -/
structure McSkin where
  id : String
  state : String
  url : String
  variant : String
  «alias» : Option String
  deriving DecidableEq

/-- Minecraft cape (`models.rs::McCape`). -/
structure McCape where
  id : String
  state : String
  url : String
  «alias» : Option String
  deriving DecidableEq

/-- Minecraft profile (`models.rs::McProfile`); `id` is the UUID
without dashes. -/
structure McProfile where
  id : String
  name : String
  skins : List McSkin
  capes : List McCape
  deriving DecidableEq

/-- Complete authentication session (`session.rs::Session`). -/
structure Session where
  ms : MsTokens
  xbl : XblToken
  xsts : XstsToken
  mc : McToken
  profile : McProfile
  xuid : Option String
  gamertag : Option String
  deriving DecidableEq

/-- `Session::needs_refresh` delegates to the Minecraft token
expiry check. -/
def Session.needs_refresh (s : Session) (now : Int) : Bool :=
  s.mc.is_expired now

/-- `Session::account_key`: the profile UUID used as storage key. -/
def Session.account_key (s : Session) : String :=
  s.profile.id

/-! ## Symbolic serialization of sessions

Stand-in for `serde_json::to_vec`/`from_slice` on `Session`: an
injective byte encoding with a proven parse inverse, which is the
only property of the serialization the claims depend on. -/

/-- Length-prefixed byte encoding of a string. -/
def encStr (s : String) : List Nat :=
  vlq s.data.length ++ charsBytes s.data

/-- Parse a length-prefixed string. -/
def decStr (bs : List Nat) : Option (String × List Nat) :=
  match vlqParse bs with
  | some (n, rest) =>
    match decChars n rest with
    | some (cs, rest2) => some (cs.asString, rest2)
    | none => none
  | none => none

/-- Tagged byte encoding of an optional string. -/
def encOptStr : Option String → List Nat
  | none => [0]
  | some s => 1 :: encStr s

/-- Parse a tagged optional string. -/
def decOptStr : List Nat → Option (Option String × List Nat)
  | 0 :: rest => some (none, rest)
  | 1 :: rest =>
    match decStr rest with
    | some (s, rest2) => some (some s, rest2)
    | none => none
  | _ => none

/-- Zigzag byte encoding of an integer. -/
def encInt (i : Int) : List Nat :=
  vlq (if 0 ≤ i then 2 * i.toNat else 2 * (-i).toNat - 1)

/-- Parse a zigzag-encoded integer. -/
def decInt (bs : List Nat) : Option (Int × List Nat) :=
  match vlqParse bs with
  | some (v, rest) =>
    if v % 2 = 0 then some (((v / 2 : Nat) : Int), rest)
    else some (-(((v + 1) / 2 : Nat) : Int), rest)
  | none => none

/-- Concatenated encodings of the elements of a list. -/
def encListPayload (enc : α → List Nat) : List α → List Nat
  | [] => []
  | x :: xs => enc x ++ encListPayload enc xs

/-- Count-prefixed encoding of a list. -/
def encListWith (enc : α → List Nat) (l : List α) : List Nat :=
  vlq l.length ++ encListPayload enc l

/-- Parse exactly `n` elements. -/
def decCount (dec : List Nat → Option (α × List Nat)) :
    Nat → List Nat → Option (List α × List Nat)
  | 0, bs => some ([], bs)
  | n + 1, bs =>
    match dec bs with
    | some (x, rest) =>
      match decCount dec n rest with
      | some (xs, rest2) => some (x :: xs, rest2)
      | none => none
    | none => none

/-- Parse a count-prefixed list. -/
def decListWith (dec : List Nat → Option (α × List Nat)) (bs : List Nat) :
    Option (List α × List Nat) :=
  match vlqParse bs with
  | some (n, rest) => decCount dec n rest
  | none => none

/-- Byte encoding of `MsTokens`. -/
def encMs (t : MsTokens) : List Nat :=
  encStr t.access_token ++ encOptStr t.refresh_token ++ encInt t.expires_at

/-- Parse an `MsTokens`. -/
def decMs (bs : List Nat) : Option (MsTokens × List Nat) := do
  let (a, bs) ← decStr bs
  let (r, bs) ← decOptStr bs
  let (e, bs) ← decInt bs
  some ({ access_token := a, refresh_token := r, expires_at := e }, bs)

/-- Byte encoding of `XblToken`. -/
def encXbl (t : XblToken) : List Nat :=
  encStr t.token ++ encStr t.uhs ++ encOptStr t.not_after

/-- Parse an `XblToken`. -/
def decXbl (bs : List Nat) : Option (XblToken × List Nat) := do
  let (tok, bs) ← decStr bs
  let (u, bs) ← decStr bs
  let (na, bs) ← decOptStr bs
  some ({ token := tok, uhs := u, not_after := na }, bs)

/-- Byte encoding of `XstsToken`. -/
def encXsts (t : XstsToken) : List Nat :=
  encStr t.token ++ encStr t.uhs ++ encOptStr t.not_after

/-- Parse an `XstsToken`. -/
def decXsts (bs : List Nat) : Option (XstsToken × List Nat) := do
  let (tok, bs) ← decStr bs
  let (u, bs) ← decStr bs
  let (na, bs) ← decOptStr bs
  some ({ token := tok, uhs := u, not_after := na }, bs)

/-- Byte encoding of `McToken`. -/
def encMc (t : McToken) : List Nat :=
  encStr t.access_token ++ encInt t.expires_at

/-- Parse an `McToken`. -/
def decMc (bs : List Nat) : Option (McToken × List Nat) := do
  let (a, bs) ← decStr bs
  let (e, bs) ← decInt bs
  some ({ access_token := a, expires_at := e }, bs)

/-- Byte encoding of `McSkin`. -/
def encSkin (sk : McSkin) : List Nat :=
  encStr sk.id ++ encStr sk.state ++ encStr sk.url ++ encStr sk.variant
    ++ encOptStr sk.«alias»

/-- Parse an `McSkin`. -/
def decSkin (bs : List Nat) : Option (McSkin × List Nat) := do
  let (i, bs) ← decStr bs
  let (st, bs) ← decStr bs
  let (u, bs) ← decStr bs
  let (v, bs) ← decStr bs
  let (al, bs) ← decOptStr bs
  some ({ id := i, state := st, url := u, variant := v, «alias» := al }, bs)

/-- Byte encoding of `McCape`. -/
def encCape (cp : McCape) : List Nat :=
  encStr cp.id ++ encStr cp.state ++ encStr cp.url ++ encOptStr cp.«alias»

/-- Parse an `McCape`. -/
def decCape (bs : List Nat) : Option (McCape × List Nat) := do
  let (i, bs) ← decStr bs
  let (st, bs) ← decStr bs
  let (u, bs) ← decStr bs
  let (al, bs) ← decOptStr bs
  some ({ id := i, state := st, url := u, «alias» := al }, bs)

/-- Byte encoding of `McProfile`. -/
def encProfile (p : McProfile) : List Nat :=
  encStr p.id ++ encStr p.name ++ encListWith encSkin p.skins
    ++ encListWith encCape p.capes

/-- Parse an `McProfile`. -/
def decProfile (bs : List Nat) : Option (McProfile × List Nat) := do
  let (i, bs) ← decStr bs
  let (n, bs) ← decStr bs
  let (sk, bs) ← decListWith decSkin bs
  let (cp, bs) ← decListWith decCape bs
  some ({ id := i, name := n, skins := sk, capes := cp }, bs)

/-- Byte serialization of a `Session` (symbolic
`serde_json::to_vec`). -/
def sessionToBytes (s : Session) : List Nat :=
  encMs s.ms ++ encXbl s.xbl ++ encXsts s.xsts ++ encMc s.mc
    ++ encProfile s.profile ++ encOptStr s.xuid ++ encOptStr s.gamertag

/-- Parse a serialized `Session`, requiring the whole input to be
consumed (symbolic `serde_json::from_slice`). -/
def sessionFromBytes (bs : List Nat) : Option Session := do
  let (ms, bs) ← decMs bs
  let (xbl, bs) ← decXbl bs
  let (xsts, bs) ← decXsts bs
  let (mc, bs) ← decMc bs
  let (profile, bs) ← decProfile bs
  let (xuid, bs) ← decOptStr bs
  let (gamertag, bs) ← decOptStr bs
  if bs.isEmpty then
    some { ms := ms, xbl := xbl, xsts := xsts, mc := mc, profile := profile,
           xuid := xuid, gamertag := gamertag }
  else none

/-! ## Association-list maps

Model of the in-memory `HashMap`s and of the per-account file
directory: insert replaces an existing binding or appends a new
one, matching map semantics up to key set and lookup. -/

/-- Insert or replace a binding. -/
def assocInsert (k : String) (v : α) : List (String × α) → List (String × α)
  | [] => [(k, v)]
  | (k2, v2) :: rest =>
    if k2 = k then (k, v) :: rest else (k2, v2) :: assocInsert k v rest

/-- Look a key up. -/
def assocLookup (k : String) : List (String × α) → Option α
  | [] => none
  | (k2, v2) :: rest => if k2 = k then some v2 else assocLookup k rest

/-- Remove a binding. -/
def assocErase (k : String) : List (String × α) → List (String × α)
  | [] => []
  | (k2, v2) :: rest =>
    if k2 = k then assocErase k rest else (k2, v2) :: assocErase k rest

/-! ## Volatile token store (`store.rs::MemoryTokenStore`)

A shared map guarded by a read-write lock; the lock and its
poisoning are not modelled (the model has no panics), so `save`
and `remove` always succeed. -/

/-- State of a `MemoryTokenStore`: the session map. -/
def MemoryTokenStore := List (String × Session)

/-- `MemoryTokenStore::load`. -/
def MemoryTokenStore.load (st : MemoryTokenStore) (account_key : String) :
    Option Session :=
  assocLookup account_key st

/-- `MemoryTokenStore::save`. -/
def MemoryTokenStore.save (st : MemoryTokenStore) (account_key : String)
    (session : Session) : MemoryTokenStore :=
  assocInsert account_key session st

/-- `MemoryTokenStore::remove`. -/
def MemoryTokenStore.remove (st : MemoryTokenStore) (account_key : String) :
    MemoryTokenStore :=
  assocErase account_key st

/-- `MemoryTokenStore::list_accounts`. -/
def MemoryTokenStore.list_accounts (st : MemoryTokenStore) : List String :=
  st.map (fun p => p.1)

/-- The empty memory store (`MemoryTokenStore::new`). -/
def MemoryTokenStore.new : MemoryTokenStore := []

/-! ## Key manager (`key_manager.rs`) -/

/-- Metadata for key derivation and storage format
(`key_manager.rs::KeyMeta`). -/
structure KeyMeta where
  version : Nat
  created_at : Int
  passphrase_salt : Option String
  deriving DecidableEq

/-- Key manager state (`key_manager.rs::KeyManager`): metadata and
the live symmetric key (32 bytes). -/
structure KeyManager where
  meta : KeyMeta
  key : List Nat
  deriving DecidableEq

/-- `KeyManager::rotate`, translated step by step from the source:
generate a brand-new random key (the `OsRng` draw is the `freshKey`
argument), update `meta.created_at`, best-effort push to the
platform keyring and rewrite `meta.json` (I/O outside the model),
and return the new key.  The source never assigns the new key to
`self.key`, so the manager field `key` is unchanged here. -/
def KeyManager.rotate (km : KeyManager) (freshKey : List Nat) (now : Int) :
    List Nat × KeyManager :=
  (freshKey, { km with meta := { km.meta with created_at := now } })

/-! ## Durable token store (`file_store.rs::FileTokenStore`)

Filesystem state is the per-account map of encrypted blobs (the
`accounts/` directory); the advisory lock always succeeds in the
model (single process, no contention), and I/O never fails. -/

/-- State of a `FileTokenStore`: account files, cache, key manager. -/
structure FileTokenStore where
  files : List (String × EncryptedBlob)
  cache : List (String × Session)
  key_manager : KeyManager
  deriving DecidableEq

/-- `FileTokenStore::load_from_disk`: read the blob if the account
file exists, decrypt it under the live key with the account key as
AAD context, and deserialize the session. -/
def FileTokenStore.load_from_disk (st : FileTokenStore) (account_key : String) :
    Except RcAuthError (Option Session) :=
  match assocLookup account_key st.files with
  | none => Except.ok none
  | some blob =>
    match decrypt st.key_manager.key blob account_key with
    | Except.error e => Except.error e
    | Except.ok plaintext =>
      match sessionFromBytes plaintext with
      | none => Except.error (RcAuthError.InvalidResponse "Invalid session data")
      | some session => Except.ok (some session)

/-- `FileTokenStore::save_to_disk`: serialize, encrypt bound to the
account key (the random nonce drawn inside `crypto::encrypt` is the
`nonce` argument), and atomically replace the account file. -/
def FileTokenStore.save_to_disk (st : FileTokenStore) (nonce : List Nat)
    (account_key : String) (session : Session) : FileTokenStore :=
  let blob := encryptBlob st.key_manager.key nonce (sessionToBytes session)
    account_key
  { st with files := assocInsert account_key blob st.files }

/-- `FileTokenStore::load` (trait impl): cache hit short-circuits;
otherwise read from disk, treating every disk or decryption error
as absence, and populate the cache on success. -/
def FileTokenStore.load (st : FileTokenStore) (account_key : String) :
    Option Session × FileTokenStore :=
  match assocLookup account_key st.cache with
  | some session => (some session, st)
  | none =>
    match st.load_from_disk account_key with
    | Except.ok (some session) =>
      (some session, { st with cache := assocInsert account_key session st.cache })
    | Except.ok none => (none, st)
    | Except.error _ => (none, st)

/-- `FileTokenStore::save` (trait impl): write through to disk and
update the cache. -/
def FileTokenStore.save (st : FileTokenStore) (nonce : List Nat)
    (account_key : String) (session : Session) : FileTokenStore :=
  let st2 := st.save_to_disk nonce account_key session
  { st2 with cache := assocInsert account_key session st2.cache }

/-- `FileTokenStore::remove` (trait impl): delete the file if
present and evict the cache entry. -/
def FileTokenStore.remove (st : FileTokenStore) (account_key : String) :
    FileTokenStore :=
  { st with files := assocErase account_key st.files,
            cache := assocErase account_key st.cache }

/-- `FileTokenStore::list_accounts` (trait impl): stems of the
record files in the accounts directory. -/
def FileTokenStore.list_accounts (st : FileTokenStore) : List String :=
  st.files.map (fun p => p.1)

/-- Load every listed account from disk under the current key
(the collection loop of `rotate_key`); a decryption error aborts
via `?`, and accounts whose file has vanished are skipped. -/
def FileTokenStore.collectSessions (st : FileTokenStore) :
    List String → Except RcAuthError (List (String × Session))
  | [] => Except.ok []
  | k :: ks =>
    match st.load_from_disk k with
    | Except.error e => Except.error e
    | Except.ok none => FileTokenStore.collectSessions st ks
    | Except.ok (some session) =>
      match FileTokenStore.collectSessions st ks with
      | Except.error e => Except.error e
      | Except.ok rest => Except.ok ((k, session) :: rest)

/-- `FileTokenStore::rotate_key`: load all sessions with the
current key, ask the key manager to rotate (its returned new key
is dropped, exactly as in the source, which discards the result of
`key_manager.rotate(..)`), re-save every loaded session through
`save_to_disk`, and clear the cache.  `nonceFor` supplies the
fresh random nonce each re-encryption draws. -/
def FileTokenStore.rotate_key (st : FileTokenStore) (freshKey : List Nat)
    (now : Int) (nonceFor : String → List Nat) :
    Except RcAuthError FileTokenStore :=
  match st.collectSessions st.list_accounts with
  | Except.error e => Except.error e
  | Except.ok sessions =>
    let km2 := (st.key_manager.rotate freshKey now).2
    let st2 := { st with key_manager := km2 }
    let st3 := sessions.foldl
      (fun acc p => acc.save_to_disk (nonceFor p.1) p.1 p.2) st2
    Except.ok { st3 with cache := [] }

/-! ## Auth client (`client.rs`)

The redirect URL is modelled at the level of its decoded query
pairs (the `url` crate parsing and percent-decoding are outside
the model); collecting `query_pairs()` into a `HashMap` makes the
last occurrence of a duplicate key win, which `queryLookup`
reproduces.  The four network stages used by `refresh_session` are
supplied as oracle functions standing for the HTTP round trips. -/

/-- Lookup in the query-pair map built by
`url.query_pairs().collect::<HashMap<_,_>>()`: last binding wins. -/
def queryLookup (params : List (String × String)) (key : String) : Option String :=
  params.foldl (fun acc p => if p.1 = key then some p.2 else acc) none

/-- Extract the `code` parameter (the final step of
`parse_redirect`). -/
def extractCode (params : List (String × String)) : Except RcAuthError String :=
  match queryLookup params "code" with
  | some c => Except.ok c
  | none => Except.error RcAuthError.InvalidRedirect

/-- `RcAuthClient::parse_redirect` over the decoded query pairs:
check `error` first (access-denied means the user cancelled, any
other error value is an invalid redirect), then the anti-CSRF
state when one was expected, then extract the authorization
code. -/
def parse_redirect (params : List (String × String))
    (expected_state : Option String) : Except RcAuthError String :=
  match queryLookup params "error" with
  | some error =>
    if error = "access_denied" then Except.error RcAuthError.UserCancelled
    else Except.error RcAuthError.InvalidRedirect
  | none =>
    match expected_state with
    | some expected =>
      match queryLookup params "state" with
      | some actual =>
        if actual = expected then extractCode params
        else Except.error RcAuthError.StateMismatch
      | none => Except.error RcAuthError.StateMismatch
    | none => extractCode params

/-- `RcAuthClient::refresh_session`: requires a stored refresh
token, then re-runs the chain ms-refresh → xbl → xsts → mc-login
(each stage an oracle standing for the network call), keeping the
previous profile, XUID and gamertag. -/
def refresh_session
    (refreshMs : String → Except RcAuthError MsTokens)
    (xblAuthenticate : String → Except RcAuthError XblToken)
    (xstsAuthorize : String → Except RcAuthError XstsToken)
    (mcLogin : String → String → Except RcAuthError McToken)
    (session : Session) : Except RcAuthError Session :=
  match session.ms.refresh_token with
  | none => Except.error RcAuthError.MissingRefreshToken
  | some refresh_token =>
    match refreshMs refresh_token with
    | Except.error e => Except.error e
    | Except.ok ms =>
      match xblAuthenticate ms.access_token with
      | Except.error e => Except.error e
      | Except.ok xbl =>
        match xstsAuthorize xbl.token with
        | Except.error e => Except.error e
        | Except.ok xsts =>
          match mcLogin xsts.token xsts.uhs with
          | Except.error e => Except.error e
          | Except.ok mc =>
            Except.ok { ms := ms, xbl := xbl, xsts := xsts, mc := mc,
                        profile := session.profile, xuid := session.xuid,
                        gamertag := session.gamertag }

/-- Decidable equality for `Except`, used to evaluate results of
the embedded fallible operations on concrete inputs. -/
instance {ε α : Type} [DecidableEq ε] [DecidableEq α] :
    DecidableEq (Except ε α) := fun a b =>
  match a, b with
  | Except.error e1, Except.error e2 =>
    if h : e1 = e2 then isTrue (h ▸ rfl)
    else isFalse (fun c => h (Except.error.inj c))
  | Except.ok x, Except.ok y =>
    if h : x = y then isTrue (h ▸ rfl)
    else isFalse (fun c => h (Except.ok.inj c))
  | Except.error _, Except.ok _ => isFalse (fun c => Except.noConfusion c)
  | Except.ok _, Except.error _ => isFalse (fun c => Except.noConfusion c)

/-- Sample profile for concrete evaluations. -/
def sampleProfile : McProfile :=
  { id := "uuid1", name := "Player", skins := [], capes := [] }

/-- Sample session for concrete evaluations. -/
def sampleSession : Session :=
  { ms := { access_token := "msa", refresh_token := some "r1", expires_at := 1000 }
    xbl := { token := "xb", uhs := "u", not_after := none }
    xsts := { token := "xs", uhs := "u", not_after := none }
    mc := { access_token := "mca", expires_at := 1000 }
    profile := sampleProfile
    xuid := none
    gamertag := none }

/-- Sample refreshed Microsoft tokens. -/
def msTok2 : MsTokens :=
  { access_token := "msa2", refresh_token := some "r2", expires_at := 2000 }

/-- Sample refreshed Xbox Live token. -/
def xblTok2 : XblToken := { token := "xb2", uhs := "u2", not_after := none }

/-- Sample refreshed XSTS token. -/
def xstsTok2 : XstsToken := { token := "xs2", uhs := "u2", not_after := none }

/-- Sample refreshed Minecraft token. -/
def mcTok2 : McToken := { access_token := "mca2", expires_at := 2000 }

/-- A fresh durable store state over a given key manager
(`FileTokenStore::new` after directory creation, before any
save). -/
def emptyFileStore (km : KeyManager) : FileTokenStore :=
  { files := [], cache := [], key_manager := km }

/-- Sample key manager for concrete evaluations: version-1
metadata and an all-zero 32-byte key. -/
def sampleKeyManager : KeyManager :=
  { meta := { version := 1, created_at := 0, passphrase_salt := none }
    key := List.replicate 32 0 }

/-- The old (pre-rotation) store key for the C1 evaluation. -/
def c1OldKey : List Nat := List.replicate 32 0

/-- The brand-new random key `EncryptionKey::generate` draws inside
`KeyManager::rotate` for the C1 evaluation. -/
def c1NewKey : List Nat := List.replicate 32 1

/-- Fixed nonce used by the concrete encryptions in the C1
evaluation. -/
def c1Nonce : List Nat := List.replicate 12 0

/-- Key manager starting state for the C1 evaluation: the live key
is the old key. -/
def c1KeyManager : KeyManager :=
  { meta := { version := 1, created_at := 0, passphrase_salt := none }
    key := c1OldKey }

/-- A store holding one saved account, keyed under the old key. -/
def c1Store : FileTokenStore :=
  (emptyFileStore c1KeyManager).save c1Nonce "uuid1" sampleSession

/-- Result of rotating the key of `c1Store`. -/
def c1Result : Except RcAuthError FileTokenStore :=
  c1Store.rotate_key c1NewKey 5 (fun _ => c1Nonce)

/-- The store state after rotation (the error branch is
unreachable on this input). -/
def c1After : FileTokenStore :=
  match c1Result with
  | Except.ok st => st
  | Except.error _ => emptyFileStore c1KeyManager

/-- The on-disk blob of the account after rotation. -/
def c1Blob : EncryptedBlob :=
  (assocLookup "uuid1" c1After.files).getD
    { nonce := "", ciphertext := "", aad_version := "" }

set_option maxRecDepth 40000

theorem vlqAux_congr :
    ∀ (n fuel1 fuel2 : Nat), n < fuel1 → n < fuel2 →
      vlqAux fuel1 n = vlqAux fuel2 n := by
  intro n
  induction n using Nat.strong_induction_on with
  | _ n ih =>
    intro fuel1 fuel2 h1 h2
    match fuel1, fuel2 with
    | f1 + 1, f2 + 1 =>
      simp only [vlqAux]
      split
      · rfl
      · next h =>
        have hd : n / 128 < n := Nat.div_lt_self (by omega) (by omega)
        rw [ih (n / 128) hd f1 f2 (by omega) (by omega)]

/-- Unfolding equation of `vlq`, matching the recursion of the
source encoding. -/
theorem vlq_unfold (n : Nat) :
    vlq n = if n < 128 then [n] else (n % 128 + 128) :: vlq (n / 128) := by
  show vlqAux (n + 1) n = _
  simp only [vlqAux]
  split
  · rfl
  · next h =>
    have hd : n / 128 < n := Nat.div_lt_self (by omega) (by omega)
    rw [vlqAux_congr (n / 128) n (n / 128 + 1) (by omega) (by omega)]
    rfl

theorem vlq_byteValid (n : Nat) : byteValid (vlq n) := by
  induction n using Nat.strong_induction_on with
  | _ n ih =>
    rw [vlq_unfold]
    split
    · intro b hb; simp at hb; omega
    · next h =>
      intro b hb
      simp at hb
      rcases hb with hb | hb
      · omega
      · exact ih (n / 128) (Nat.div_lt_self (by omega) (by omega)) b hb

theorem vlqParse_vlq (n : Nat) (rest : List Nat) :
    vlqParse (vlq n ++ rest) = some (n, rest) := by
  induction n using Nat.strong_induction_on generalizing rest with
  | _ n ih =>
    rw [vlq_unfold]
    split
    · next h => simp [vlqParse, h]
    · next h =>
      simp only [List.cons_append, vlqParse, List.append_eq]
      rw [if_neg (by omega)]
      rw [ih (n / 128) (Nat.div_lt_self (by omega) (by omega)) rest]
      simp only [Option.some.injEq, Prod.mk.injEq]
      have hdm := Nat.div_add_mod n 128
      exact ⟨by omega, trivial⟩

/-- The VLQ encoding never produces the empty list. -/
theorem vlq_ne_nil (n : Nat) : vlq n ≠ [] := by
  rw [vlq_unfold]; split <;> simp

theorem vlq_inj {m n : Nat} (h : vlq m = vlq n) : m = n := by
  have h1 := vlqParse_vlq m []
  have h2 := vlqParse_vlq n []
  rw [h] at h1
  rw [h1] at h2
  simp at h2
  omega

theorem charsBytes_byteValid (cs : List Char) : byteValid (charsBytes cs) := by
  induction cs with
  | nil => intro b hb; simp [charsBytes] at hb
  | cons c cs ih =>
    intro b hb
    simp only [charsBytes, List.mem_append] at hb
    rcases hb with hb | hb
    · exact vlq_byteValid _ b hb
    · exact ih b hb

theorem strBytes_byteValid (s : String) : byteValid (strBytes s) :=
  charsBytes_byteValid s.data

theorem decChars_charsBytes (cs : List Char) (rest : List Nat) :
    decChars cs.length (charsBytes cs ++ rest) = some (cs, rest) := by
  induction cs generalizing rest with
  | nil => simp [charsBytes, decChars]
  | cons c cs ih =>
    simp only [charsBytes, List.length_cons, decChars, List.append_assoc,
      vlqParse_vlq, ih, Char.ofNat_toNat]

theorem charsBytes_inj {cs1 cs2 : List Char} (h : charsBytes cs1 = charsBytes cs2) :
    cs1 = cs2 := by
  induction cs1 generalizing cs2 with
  | nil =>
    cases cs2 with
    | nil => rfl
    | cons c cs =>
      exfalso
      simp only [charsBytes] at h
      have := vlq_ne_nil c.toNat
      cases hv : vlq c.toNat with
      | nil => exact this hv
      | cons x xs => rw [hv] at h; simp at h
  | cons c1 cs1 ih =>
    cases cs2 with
    | nil =>
      exfalso
      simp only [charsBytes] at h
      have := vlq_ne_nil c1.toNat
      cases hv : vlq c1.toNat with
      | nil => exact this hv
      | cons x xs => rw [hv] at h; simp at h
    | cons c2 cs2 =>
      simp only [charsBytes] at h
      have p1 := vlqParse_vlq c1.toNat (charsBytes cs1)
      have p2 := vlqParse_vlq c2.toNat (charsBytes cs2)
      rw [h, p2] at p1
      simp only [Option.some.injEq, Prod.mk.injEq] at p1
      obtain ⟨hc, hcs⟩ := p1
      have hchar : c2 = c1 := by
        have := congrArg Char.ofNat hc
        rwa [Char.ofNat_toNat, Char.ofNat_toNat] at this
      rw [hchar, ih hcs.symm]

theorem strBytes_inj {s1 s2 : String} (h : strBytes s1 = strBytes s2) : s1 = s2 :=
  String.ext (charsBytes_inj h)

theorem sextetsToBytes_bytesToSextets :
    ∀ bs : List Nat, byteValid bs → sextetsToBytes (bytesToSextets bs) = some bs
  | [], _ => rfl
  | [b], h => by
    have hb : b < 256 := h b (by simp)
    simp only [bytesToSextets, sextetsToBytes]
    rw [if_pos (by omega)]
    simp only [Option.some.injEq, List.cons.injEq]
    exact ⟨by omega, trivial⟩
  | [b0, b1], h => by
    have h0 : b0 < 256 := h b0 (by simp)
    have h1 : b1 < 256 := h b1 (by simp)
    simp only [bytesToSextets, sextetsToBytes]
    rw [if_pos (by omega)]
    simp only [Option.some.injEq, List.cons.injEq]
    exact ⟨by omega, by omega, trivial⟩
  | b0 :: b1 :: b2 :: b3 :: rest, h => by
    have h0 : b0 < 256 := h b0 (by simp)
    have h1 : b1 < 256 := h b1 (by simp)
    have h2 : b2 < 256 := h b2 (by simp)
    have ih := sextetsToBytes_bytesToSextets (b3 :: rest)
      (fun x hx => h x (by simp at hx ⊢; tauto))
    simp only [bytesToSextets, sextetsToBytes, ih, Option.some.injEq, List.cons.injEq]
    exact ⟨by omega, by omega, by omega, trivial⟩
  | [b0, b1, b2], h => by
    have h0 : b0 < 256 := h b0 (by simp)
    have h1 : b1 < 256 := h b1 (by simp)
    have h2 : b2 < 256 := h b2 (by simp)
    simp only [bytesToSextets, sextetsToBytes]
    simp only [Option.some.injEq, List.cons.injEq]
    exact ⟨by omega, by omega, by omega, trivial⟩

theorem bytesToSextets_lt :
    ∀ bs : List Nat, byteValid bs → ∀ s ∈ bytesToSextets bs, s < 64
  | [], _ => by intro s hs; simp [bytesToSextets] at hs
  | [b], h => by
    have hb : b < 256 := h b (by simp)
    intro s hs
    simp [bytesToSextets] at hs
    rcases hs with hs | hs <;> omega
  | [b0, b1], h => by
    have h0 : b0 < 256 := h b0 (by simp)
    have h1 : b1 < 256 := h b1 (by simp)
    intro s hs
    simp [bytesToSextets] at hs
    rcases hs with hs | hs | hs <;> omega
  | b0 :: b1 :: b2 :: b3 :: rest, h => by
    have h0 : b0 < 256 := h b0 (by simp)
    have h1 : b1 < 256 := h b1 (by simp)
    have h2 : b2 < 256 := h b2 (by simp)
    intro s hs
    simp only [bytesToSextets, List.mem_cons] at hs
    rcases hs with hs | hs | hs | hs | hs
    · omega
    · omega
    · omega
    · omega
    · exact bytesToSextets_lt (b3 :: rest)
        (fun x hx => h x (by simp at hx ⊢; tauto)) s hs
  | [b0, b1, b2], h => by
    have h0 : b0 < 256 := h b0 (by simp)
    have h1 : b1 < 256 := h b1 (by simp)
    have h2 : b2 < 256 := h b2 (by simp)
    intro s hs
    simp [bytesToSextets] at hs
    rcases hs with hs | hs | hs | hs <;> omega

theorem b64Val_b64Char : ∀ v < 64, b64Val (b64Char v) = some v := by decide

theorem sextetsOfChars_map_b64Char (vs : List Nat) (h : ∀ v ∈ vs, v < 64) :
    sextetsOfChars (vs.map b64Char) = some vs := by
  induction vs with
  | nil => rfl
  | cons v vs ih =>
    simp only [List.map_cons, sextetsOfChars]
    rw [b64Val_b64Char v (h v (by simp)), ih (fun x hx => h x (by simp [hx]))]

theorem base64urlDecode_encode (bs : List Nat) (h : byteValid bs) :
    base64urlDecode (base64urlEncode bs) = some bs := by
  unfold base64urlEncode base64urlDecode
  rw [show (((bytesToSextets bs).map b64Char).asString).data
      = (bytesToSextets bs).map b64Char from rfl]
  rw [sextetsOfChars_map_b64Char _ (bytesToSextets_lt bs h)]
  exact sextetsToBytes_bytesToSextets bs h

theorem gcmSeal_byteValid {key nonce aad msg : List Nat}
    (hk : byteValid key) (hn : byteValid nonce) (ha : byteValid aad)
    (hm : byteValid msg) : byteValid (gcmSeal key nonce aad msg) := by
  intro b hb
  simp only [gcmSeal, List.mem_append] at hb
  rcases hb with (((hb | hb) | hb) | hb) | hb
  · exact hk b hb
  · exact hn b hb
  · exact vlq_byteValid _ b hb
  · exact ha b hb
  · exact hm b hb

theorem gcmOpen_gcmSeal {key nonce aad msg : List Nat}
    (hk : key.length = 32) (hn : nonce.length = 12) :
    gcmOpen key nonce aad (gcmSeal key nonce aad msg) = some msg := by
  unfold gcmOpen gcmSeal
  simp only [List.append_assoc]
  rw [List.take_left' hk, List.drop_left' hk, List.take_left' hn,
    List.drop_left' hn, vlqParse_vlq]
  simp only []
  rw [if_pos ⟨trivial, trivial, trivial, List.take_left' rfl⟩]
  rw [List.drop_left' rfl]

theorem gcmOpen_gcmSeal_wrong_aad {key nonce aad aad2 msg : List Nat}
    (hk : key.length = 32) (hn : nonce.length = 12) (hne : aad2 ≠ aad) :
    gcmOpen key nonce aad2 (gcmSeal key nonce aad msg) = none := by
  unfold gcmOpen gcmSeal
  simp only [List.append_assoc]
  rw [List.take_left' hk, List.drop_left' hk, List.take_left' hn,
    List.drop_left' hn, vlqParse_vlq]
  simp only []
  rw [if_neg]
  rintro ⟨-, -, hlen, htake⟩
  rw [List.take_left' (by omega)] at htake
  exact hne htake.symm

/-- Round trip at the level of the crypto primitive. -/
theorem decrypt_encryptBlob {key nonce plaintext : List Nat} {account_key : String}
    (hk : key.length = 32) (hkv : byteValid key)
    (hn : nonce.length = 12) (hnv : byteValid nonce)
    (hp : byteValid plaintext) :
    decrypt key (encryptBlob key nonce plaintext account_key) account_key
      = Except.ok plaintext := by
  unfold decrypt encryptBlob
  simp only []
  rw [base64urlDecode_encode nonce hnv]
  simp only [hn]
  rw [if_neg (by omega)]
  rw [base64urlDecode_encode _
    (gcmSeal_byteValid hkv hnv (strBytes_byteValid _) hp)]
  simp only [gcmOpen_gcmSeal hk hn]

theorem decStr_encStr (s : String) (rest : List Nat) :
    decStr (encStr s ++ rest) = some (s, rest) := by
  simp only [encStr, decStr, List.append_assoc, vlqParse_vlq, decChars_charsBytes]
  rfl

theorem decOptStr_encOptStr (o : Option String) (rest : List Nat) :
    decOptStr (encOptStr o ++ rest) = some (o, rest) := by
  cases o with
  | none => rfl
  | some s => simp only [encOptStr, List.cons_append, decOptStr, decStr_encStr]

theorem decInt_encInt (i : Int) (rest : List Nat) :
    decInt (encInt i ++ rest) = some (i, rest) := by
  simp only [encInt, decInt, vlqParse_vlq]
  by_cases h : 0 ≤ i
  · rw [if_pos h]
    rw [if_pos (by omega)]
    congr 2
    omega
  · rw [if_neg h]
    rw [if_neg (by omega)]
    congr 2
    omega

theorem decCount_encListPayload {enc : α → List Nat}
    {dec : List Nat → Option (α × List Nat)}
    (hdec : ∀ x rest, dec (enc x ++ rest) = some (x, rest)) (l : List α)
    (rest : List Nat) :
    decCount dec l.length (encListPayload enc l ++ rest) = some (l, rest) := by
  induction l generalizing rest with
  | nil => rfl
  | cons x xs ih =>
    simp only [encListPayload, List.length_cons, decCount, List.append_assoc,
      hdec, ih]

theorem decListWith_encListWith {enc : α → List Nat}
    {dec : List Nat → Option (α × List Nat)}
    (hdec : ∀ x rest, dec (enc x ++ rest) = some (x, rest)) (l : List α)
    (rest : List Nat) :
    decListWith dec (encListWith enc l ++ rest) = some (l, rest) := by
  simp only [encListWith, decListWith, List.append_assoc, vlqParse_vlq]
  exact decCount_encListPayload hdec l rest

theorem decMs_encMs (t : MsTokens) (rest : List Nat) :
    decMs (encMs t ++ rest) = some (t, rest) := by
  simp only [encMs, decMs, List.append_assoc, decStr_encStr, decOptStr_encOptStr,
    decInt_encInt, Option.bind_eq_bind, Option.some_bind]

theorem decXbl_encXbl (t : XblToken) (rest : List Nat) :
    decXbl (encXbl t ++ rest) = some (t, rest) := by
  simp only [encXbl, decXbl, List.append_assoc, decStr_encStr, decOptStr_encOptStr,
    Option.bind_eq_bind, Option.some_bind]

theorem decXsts_encXsts (t : XstsToken) (rest : List Nat) :
    decXsts (encXsts t ++ rest) = some (t, rest) := by
  simp only [encXsts, decXsts, List.append_assoc, decStr_encStr, decOptStr_encOptStr,
    Option.bind_eq_bind, Option.some_bind]

theorem decMc_encMc (t : McToken) (rest : List Nat) :
    decMc (encMc t ++ rest) = some (t, rest) := by
  simp only [encMc, decMc, List.append_assoc, decStr_encStr, decInt_encInt,
    Option.bind_eq_bind, Option.some_bind]

theorem decSkin_encSkin (sk : McSkin) (rest : List Nat) :
    decSkin (encSkin sk ++ rest) = some (sk, rest) := by
  simp only [encSkin, decSkin, List.append_assoc, decStr_encStr, decOptStr_encOptStr,
    Option.bind_eq_bind, Option.some_bind]

theorem decCape_encCape (cp : McCape) (rest : List Nat) :
    decCape (encCape cp ++ rest) = some (cp, rest) := by
  simp only [encCape, decCape, List.append_assoc, decStr_encStr, decOptStr_encOptStr,
    Option.bind_eq_bind, Option.some_bind]

theorem decProfile_encProfile (p : McProfile) (rest : List Nat) :
    decProfile (encProfile p ++ rest) = some (p, rest) := by
  simp only [encProfile, decProfile, List.append_assoc, decStr_encStr,
    decListWith_encListWith decSkin_encSkin, decListWith_encListWith decCape_encCape,
    Option.bind_eq_bind, Option.some_bind]

theorem sessionFromBytes_sessionToBytes (s : Session) :
    sessionFromBytes (sessionToBytes s) = some s := by
  have h : sessionToBytes s = sessionToBytes s ++ [] := by simp
  rw [h]
  simp only [sessionToBytes, sessionFromBytes, List.append_assoc, decMs_encMs,
    decXbl_encXbl, decXsts_encXsts, decMc_encMc, decProfile_encProfile,
    decOptStr_encOptStr, Option.bind_eq_bind, Option.some_bind, List.isEmpty_nil,
    if_true]

theorem assocLookup_assocInsert (k : String) (v : α) (l : List (String × α)) :
    assocLookup k (assocInsert k v l) = some v := by
  induction l with
  | nil => simp [assocInsert, assocLookup]
  | cons p rest ih =>
    obtain ⟨k2, v2⟩ := p
    by_cases h : k2 = k
    · simp [assocInsert, assocLookup, h]
    · simp only [assocInsert, assocLookup, if_neg h]
      exact ih

theorem assocLookup_assocErase (k : String) (l : List (String × α)) :
    assocLookup k (assocErase k l) = none := by
  induction l with
  | nil => rfl
  | cons p rest ih =>
    obtain ⟨k2, v2⟩ := p
    by_cases h : k2 = k
    · simp only [assocErase, if_pos h]
      exact ih
    · simp only [assocErase, assocLookup, if_neg h]
      exact ih

/-- C6: `McToken.is_expired` returns true exactly when
`now + 300 >= expires_at`; a token with `expires_in = 3600` is not
expired immediately, is expired once more than `3600 - 300` seconds
have passed, and a token with `expires_in = 100` (below the skew)
is expired immediately. -/
theorem c6_mc_token_expiry_skew :
    (∀ (t : McToken) (now : Int),
        t.is_expired now = true ↔ now + 300 ≥ t.expires_at)
    ∧ (∀ (a : String) (t0 : Int), (McToken.new a 3600 t0).is_expired t0 = false)
    ∧ (∀ (a : String) (t0 d : Int), d > 3600 - 300 →
        (McToken.new a 3600 t0).is_expired (t0 + d) = true)
    ∧ (∀ (a : String) (t0 : Int), (McToken.new a 100 t0).is_expired t0 = true) := by
  refine ⟨?_, ?_, ?_, ?_⟩
  · intro t now
    simp [McToken.is_expired, TOKEN_EXPIRY_SKEW]
  · intro a t0
    simp [McToken.is_expired, McToken.new, TOKEN_EXPIRY_SKEW]
  · intro a t0 d hd
    simp [McToken.is_expired, McToken.new, TOKEN_EXPIRY_SKEW]
    omega
  · intro a t0
    simp [McToken.is_expired, McToken.new, TOKEN_EXPIRY_SKEW]

/-- Witness for C6 at a concrete input: 3301 seconds elapsed is
past the skew boundary of a 3600-second token. -/
theorem c6_mc_token_expiry_skew_witness :
    ((3301 : Int) > 3600 - 300)
    ∧ (McToken.new "token" 3600 0).is_expired (0 + 3301) = true :=
  ⟨by decide, c6_mc_token_expiry_skew.2.2.1 "token" 0 3301 (by decide)⟩

/-- C7: the XSTS XErr mapping is exact, including the unknown-code
fallback retaining the raw value. -/
theorem c7_xsts_error_mapping :
    XstsError.from_xerr 2148916233 = XstsError.NoXboxAccount
    ∧ XstsError.from_xerr 2148916235 = XstsError.RegionNotSupported
    ∧ XstsError.from_xerr 2148916236 = XstsError.AdultVerificationRequired
    ∧ XstsError.from_xerr 2148916237 = XstsError.AdultVerificationRequired
    ∧ XstsError.from_xerr 2148916238 = XstsError.ChildAccountRequiresFamily
    ∧ ∀ code : Nat, code ≠ 2148916233 → code ≠ 2148916235 →
        code ≠ 2148916236 → code ≠ 2148916237 → code ≠ 2148916238 →
        XstsError.from_xerr code = XstsError.Unknown code := by
  refine ⟨by decide, by decide, by decide, by decide, by decide, ?_⟩
  intro code h1 h2 h3 h4 h5
  simp [XstsError.from_xerr, h1, h2, h3, h4, h5]

/-- Witness for C7 at a concrete unknown code. -/
theorem c7_xsts_error_mapping_witness :
    (42 : Nat) ≠ 2148916233
    ∧ XstsError.from_xerr 42 = XstsError.Unknown 42 :=
  ⟨by decide, c7_xsts_error_mapping.2.2.2.2.2 42 (by decide) (by decide)
    (by decide) (by decide) (by decide)⟩

/-- C10 (implicit): `MsTokens.is_expired` applies no skew — it is
true exactly when `now >= expires_at` — while the 300-second skew
appears only in `McToken.is_expired`, to which
`Session.needs_refresh` delegates. -/
theorem c10_ms_token_no_skew :
    (∀ (t : MsTokens) (now : Int), t.is_expired now = true ↔ now ≥ t.expires_at)
    ∧ (∀ (s : Session) (now : Int), s.needs_refresh now = s.mc.is_expired now)
    ∧ (∀ (t : McToken) (now : Int),
        t.is_expired now = true ↔ now + TOKEN_EXPIRY_SKEW ≥ t.expires_at) := by
  refine ⟨?_, ?_, ?_⟩
  · intro t now
    simp [MsTokens.is_expired]
  · intro s now
    rfl
  · intro t now
    simp [McToken.is_expired, TOKEN_EXPIRY_SKEW]

/-- C9 counterexample: a redirect whose query carries
`error=access_denied` together with a supplied expected state that
the URL does not echo is reported as user-cancelled, not as the
state-mismatch the claim demands for every missing or differing
state parameter. -/
theorem c9_parse_redirect_counterexample :
    parse_redirect [("error", "access_denied")] (some "xyz")
        = Except.error RcAuthError.UserCancelled
    ∧ (Except.error RcAuthError.UserCancelled
        ≠ (Except.error RcAuthError.StateMismatch : Except RcAuthError String)) := by
  exact ⟨by decide, by decide⟩

/-- C9 (amended): `parse_redirect` checks the `error` parameter
first — `access_denied` means user-cancelled and any other error
value means invalid-redirect, regardless of state; only when no
error is present does a supplied expected state that is absent or
different yield state-mismatch; with the state check passed, a
missing `code` yields invalid-redirect and otherwise the code
value is returned. -/
theorem c9_parse_redirect_cases :
    (∀ (params : List (String × String)) (es : Option String),
        queryLookup params "error" = some "access_denied" →
        parse_redirect params es = Except.error RcAuthError.UserCancelled)
    ∧ (∀ (params : List (String × String)) (es : Option String) (e : String),
        queryLookup params "error" = some e → e ≠ "access_denied" →
        parse_redirect params es = Except.error RcAuthError.InvalidRedirect)
    ∧ (∀ (params : List (String × String)) (expected : String),
        queryLookup params "error" = none →
        (queryLookup params "state" = none
          ∨ ∃ actual, queryLookup params "state" = some actual ∧ actual ≠ expected) →
        parse_redirect params (some expected) = Except.error RcAuthError.StateMismatch)
    ∧ (∀ (params : List (String × String)) (es : Option String) (c : String),
        queryLookup params "error" = none →
        (es = none ∨ ∃ expected, es = some expected
          ∧ queryLookup params "state" = some expected) →
        queryLookup params "code" = some c →
        parse_redirect params es = Except.ok c)
    ∧ (∀ (params : List (String × String)) (es : Option String),
        queryLookup params "error" = none →
        (es = none ∨ ∃ expected, es = some expected
          ∧ queryLookup params "state" = some expected) →
        queryLookup params "code" = none →
        parse_redirect params es = Except.error RcAuthError.InvalidRedirect) := by
  refine ⟨?_, ?_, ?_, ?_, ?_⟩
  · intro params es herr
    unfold parse_redirect
    rw [herr]
    simp
  · intro params es e herr hne
    unfold parse_redirect
    rw [herr]
    simp [hne]
  · intro params expected herr hstate
    unfold parse_redirect
    rw [herr]
    rcases hstate with hs | ⟨actual, hs, hne⟩
    · rw [hs]
    · rw [hs]
      simp [hne]
  · intro params es c herr hok hcode
    unfold parse_redirect extractCode
    rw [herr]
    rcases hok with hs | ⟨expected, hes, hs⟩
    · rw [hs, hcode]
    · rw [hes, hs]
      simp [hcode]
  · intro params es herr hok hcode
    unfold parse_redirect extractCode
    rw [herr]
    rcases hok with hs | ⟨expected, hes, hs⟩
    · rw [hs, hcode]
    · rw [hes, hs]
      simp [hcode]

/-- Witness for the amended C9 at concrete inputs. -/
theorem c9_parse_redirect_cases_witness :
    queryLookup [("state", "s1"), ("code", "c0")] "error" = none
    ∧ queryLookup [("state", "s1"), ("code", "c0")] "code" = some "c0"
    ∧ parse_redirect [("state", "s1"), ("code", "c0")] (some "s1")
        = Except.ok "c0" :=
  ⟨by decide, by decide,
    c9_parse_redirect_cases.2.2.2.1 [("state", "s1"), ("code", "c0")]
      (some "s1") "c0" (by decide)
      (Or.inr ⟨"s1", rfl, by decide⟩) (by decide)⟩

/-- C2 counterexample: a blob whose nonce field is not decodable
base64 makes `decrypt` fail with the `Crypto` error kind, which is
distinct from `CorruptedStore` — refuting the claim that every
decryption failure collapses to the corrupted-store kind. -/
theorem c2_decrypt_counterexample :
    decrypt (List.replicate 32 0)
        { nonce := "!", ciphertext := "", aad_version := "v1" } "acct"
      = Except.error (RcAuthError.Crypto "Invalid nonce")
    ∧ RcAuthError.Crypto "Invalid nonce" ≠ RcAuthError.CorruptedStore := by
  exact ⟨by decide, by decide⟩

/-- C2 (amended): authentication failure (tag mismatch, wrong key,
wrong context) and a decoded nonce of length other than 12 all
collapse to `CorruptedStore`, but a nonce or ciphertext field that
fails base64 decoding is reported as the distinct `Crypto` error
kind. -/
theorem c2_decrypt_error_kinds :
    (∀ (key : List Nat) (blob : EncryptedBlob) (ak : String),
        base64urlDecode blob.nonce = none →
        decrypt key blob ak = Except.error (RcAuthError.Crypto "Invalid nonce"))
    ∧ (∀ (key : List Nat) (blob : EncryptedBlob) (ak : String) (nb : List Nat),
        base64urlDecode blob.nonce = some nb → nb.length ≠ 12 →
        decrypt key blob ak = Except.error RcAuthError.CorruptedStore)
    ∧ (∀ (key : List Nat) (blob : EncryptedBlob) (ak : String) (nb : List Nat),
        base64urlDecode blob.nonce = some nb → nb.length = 12 →
        base64urlDecode blob.ciphertext = none →
        decrypt key blob ak = Except.error (RcAuthError.Crypto "Invalid ciphertext"))
    ∧ (∀ (key : List Nat) (blob : EncryptedBlob) (ak : String)
        (nb ct : List Nat),
        base64urlDecode blob.nonce = some nb → nb.length = 12 →
        base64urlDecode blob.ciphertext = some ct →
        gcmOpen key nb (strBytes ("rc-auth|" ++ blob.aad_version ++ "|" ++ ak)) ct
          = none →
        decrypt key blob ak = Except.error RcAuthError.CorruptedStore) := by
  refine ⟨?_, ?_, ?_, ?_⟩
  · intro key blob ak h1
    simp only [decrypt, h1]
  · intro key blob ak nb h1 h2
    simp only [decrypt, h1]
    rw [if_pos h2]
  · intro key blob ak nb h1 h2 h3
    simp only [decrypt, h1, h3]
    rw [if_neg (by omega)]
  · intro key blob ak nb ct h1 h2 h3 h4
    simp only [decrypt, h1, h3, h4]
    rw [if_neg (by omega)]

/-- Witness for the amended C2: each of the four cases evaluated at
a concrete input. -/
theorem c2_decrypt_error_kinds_witness :
    decrypt [] { nonce := "!", ciphertext := "", aad_version := "v1" } "a"
        = Except.error (RcAuthError.Crypto "Invalid nonce")
    ∧ decrypt [] { nonce := "AA", ciphertext := "", aad_version := "v1" } "a"
        = Except.error RcAuthError.CorruptedStore
    ∧ decrypt []
        { nonce := "AAAAAAAAAAAAAAAA", ciphertext := "!", aad_version := "v1" }
        "a"
        = Except.error (RcAuthError.Crypto "Invalid ciphertext")
    ∧ decrypt []
        { nonce := "AAAAAAAAAAAAAAAA", ciphertext := "", aad_version := "v1" }
        "a"
        = Except.error RcAuthError.CorruptedStore :=
  ⟨c2_decrypt_error_kinds.1 [] _ "a" (by decide),
   c2_decrypt_error_kinds.2.1 [] _ "a" [0] (by decide) (by decide),
   c2_decrypt_error_kinds.2.2.1 [] _ "a" (List.replicate 12 0) (by decide)
     (by decide) (by decide),
   c2_decrypt_error_kinds.2.2.2 [] _ "a" (List.replicate 12 0) [] (by decide)
     (by decide) (by decide) (by decide)⟩

/-- C3: for every 256-bit key, every plaintext byte sequence and
every account key, decrypting an encryption succeeds and returns
the original plaintext (the random nonce drawn by `encrypt` is
any 12-byte value). -/
theorem c3_encrypt_decrypt_roundtrip :
    ∀ (key nonce plaintext : List Nat) (account_key : String),
      key.length = 32 → byteValid key → nonce.length = 12 → byteValid nonce →
      byteValid plaintext →
      (encrypt key nonce plaintext account_key).bind
          (fun blob => decrypt key blob account_key)
        = Except.ok plaintext := by
  intro key nonce plaintext account_key hk hkv hn hnv hp
  simp only [encrypt, Except.bind]
  exact decrypt_encryptBlob hk hkv hn hnv hp

/-- Witness for C3 at a concrete key, nonce, plaintext and account
key. -/
theorem c3_encrypt_decrypt_roundtrip_witness :
    (List.replicate 32 7).length = 32
    ∧ byteValid (List.replicate 32 7)
    ∧ (List.replicate 12 3).length = 12
    ∧ byteValid (List.replicate 12 3)
    ∧ byteValid [1, 2, 3]
    ∧ (encrypt (List.replicate 32 7) (List.replicate 12 3) [1, 2, 3] "acct").bind
        (fun blob => decrypt (List.replicate 32 7) blob "acct")
      = Except.ok [1, 2, 3] :=
  ⟨by decide, by decide, by decide, by decide, by decide,
    c3_encrypt_decrypt_roundtrip (List.replicate 32 7) (List.replicate 12 3)
      [1, 2, 3] "acct" (by decide) (by decide) (by decide) (by decide)
      (by decide)⟩

/-- C4: decrypting under a different account-key context than the
one the blob was encrypted under fails with `CorruptedStore`, even
with the correct key — the AAD binds the ciphertext to its account
record. -/
theorem c4_decrypt_wrong_context :
    ∀ (key nonce plaintext : List Nat) (akA akB : String),
      key.length = 32 → byteValid key → nonce.length = 12 → byteValid nonce →
      byteValid plaintext → akA ≠ akB →
      (encrypt key nonce plaintext akA).bind (fun blob => decrypt key blob akB)
        = Except.error RcAuthError.CorruptedStore := by
  intro key nonce plaintext akA akB hk hkv hn hnv hp hne
  have hne2 : strBytes ("rc-auth|" ++ "v1" ++ "|" ++ akB)
      ≠ strBytes ("rc-auth|" ++ "v1" ++ "|" ++ akA) := by
    intro hs
    have hstr := strBytes_inj hs
    have hdata := congrArg String.data hstr
    simp only [String.data_append] at hdata
    have hb : akB.data = akA.data := List.append_cancel_left hdata
    exact hne (String.ext hb.symm)
  simp only [encrypt, Except.bind]
  unfold decrypt encryptBlob
  simp only []
  rw [base64urlDecode_encode nonce hnv]
  simp only [hn]
  rw [if_neg (by omega)]
  simp only [base64urlDecode_encode _
      (gcmSeal_byteValid hkv hnv (strBytes_byteValid _) hp),
    gcmOpen_gcmSeal_wrong_aad hk hn hne2]

/-- Witness for C4 at concrete distinct account keys. -/
theorem c4_decrypt_wrong_context_witness :
    ("acctA" ≠ "acctB")
    ∧ (encrypt (List.replicate 32 7) (List.replicate 12 3) [1, 2, 3] "acctA").bind
        (fun blob => decrypt (List.replicate 32 7) blob "acctB")
      = Except.error RcAuthError.CorruptedStore :=
  ⟨by decide,
    c4_decrypt_wrong_context (List.replicate 32 7) (List.replicate 12 3)
      [1, 2, 3] "acctA" "acctB" (by decide) (by decide) (by decide) (by decide)
      (by decide) (by decide)⟩

/-- C5: a successful `refresh_session` returns the session built
from the four freshly obtained tokens with `profile`, `xuid` and
`gamertag` taken unchanged from the input session, so the account
key is stable across refreshes. -/
theorem c5_refresh_session_frame :
    ∀ (refreshMs : String → Except RcAuthError MsTokens)
      (xblAuthenticate : String → Except RcAuthError XblToken)
      (xstsAuthorize : String → Except RcAuthError XstsToken)
      (mcLogin : String → String → Except RcAuthError McToken)
      (session : Session) (rt : String) (ms : MsTokens) (xbl : XblToken)
      (xsts : XstsToken) (mc : McToken),
      session.ms.refresh_token = some rt →
      refreshMs rt = Except.ok ms →
      xblAuthenticate ms.access_token = Except.ok xbl →
      xstsAuthorize xbl.token = Except.ok xsts →
      mcLogin xsts.token xsts.uhs = Except.ok mc →
      refresh_session refreshMs xblAuthenticate xstsAuthorize mcLogin session
        = Except.ok { ms := ms, xbl := xbl, xsts := xsts, mc := mc,
                      profile := session.profile, xuid := session.xuid,
                      gamertag := session.gamertag }
      ∧ ∀ s2 : Session,
          refresh_session refreshMs xblAuthenticate xstsAuthorize mcLogin session
            = Except.ok s2 →
          s2.profile = session.profile ∧ s2.xuid = session.xuid
          ∧ s2.gamertag = session.gamertag ∧ s2.ms = ms ∧ s2.xbl = xbl
          ∧ s2.xsts = xsts ∧ s2.mc = mc
          ∧ s2.account_key = session.account_key := by
  intro refreshMs xblAuthenticate xstsAuthorize mcLogin session rt ms xbl xsts mc
    h0 h1 h2 h3 h4
  have hrun : refresh_session refreshMs xblAuthenticate xstsAuthorize mcLogin
      session
      = Except.ok { ms := ms, xbl := xbl, xsts := xsts, mc := mc,
                    profile := session.profile, xuid := session.xuid,
                    gamertag := session.gamertag } := by
    unfold refresh_session
    rw [h0]
    simp only [h1, h2, h3, h4]
  refine ⟨hrun, ?_⟩
  intro s2 h5
  rw [hrun] at h5
  have := Except.ok.inj h5
  subst this
  exact ⟨rfl, rfl, rfl, rfl, rfl, rfl, rfl, rfl⟩

/-- Witness for C5 with concrete oracles and session. -/
theorem c5_refresh_session_frame_witness :
    sampleSession.ms.refresh_token = some "r1"
    ∧ refresh_session (fun _ => Except.ok msTok2) (fun _ => Except.ok xblTok2)
        (fun _ => Except.ok xstsTok2) (fun _ _ => Except.ok mcTok2) sampleSession
      = Except.ok { ms := msTok2, xbl := xblTok2, xsts := xstsTok2, mc := mcTok2,
                    profile := sampleSession.profile, xuid := sampleSession.xuid,
                    gamertag := sampleSession.gamertag } :=
  ⟨rfl,
    (c5_refresh_session_frame (fun _ => Except.ok msTok2)
      (fun _ => Except.ok xblTok2) (fun _ => Except.ok xstsTok2)
      (fun _ _ => Except.ok mcTok2) sampleSession "r1" msTok2 xblTok2 xstsTok2
      mcTok2 rfl rfl rfl rfl rfl).1⟩

/-- C8: store lifecycle for both implementations — load after save
returns the saved session, load after remove returns none, and
listing accounts after saving exactly three distinct keys returns
exactly those keys. -/
theorem c8_store_lifecycle :
    (∀ (st : MemoryTokenStore) (k : String) (s : Session),
        (st.save k s).load k = some s)
    ∧ (∀ (st : MemoryTokenStore) (k : String), (st.remove k).load k = none)
    ∧ (∀ (k1 k2 k3 : String) (s1 s2 s3 : Session),
        k1 ≠ k2 → k1 ≠ k3 → k2 ≠ k3 →
        (((MemoryTokenStore.new.save k1 s1).save k2 s2).save k3 s3).list_accounts
          = [k1, k2, k3])
    ∧ (∀ (st : FileTokenStore) (nonce : List Nat) (k : String) (s : Session),
        ((st.save nonce k s).load k).1 = some s)
    ∧ (∀ (st : FileTokenStore) (k : String), ((st.remove k).load k).1 = none)
    ∧ (∀ (km : KeyManager) (n1 n2 n3 : List Nat) (k1 k2 k3 : String)
        (s1 s2 s3 : Session), k1 ≠ k2 → k1 ≠ k3 → k2 ≠ k3 →
        ((((emptyFileStore km).save n1 k1 s1).save n2 k2 s2).save n3 k3
            s3).list_accounts
          = [k1, k2, k3]) := by
  refine ⟨?_, ?_, ?_, ?_, ?_, ?_⟩
  · intro st k s
    simp [MemoryTokenStore.load, MemoryTokenStore.save, assocLookup_assocInsert]
  · intro st k
    simp [MemoryTokenStore.load, MemoryTokenStore.remove, assocLookup_assocErase]
  · intro k1 k2 k3 s1 s2 s3 h12 h13 h23
    simp [MemoryTokenStore.new, MemoryTokenStore.save,
      MemoryTokenStore.list_accounts, assocInsert, h12, h13, h23]
  · intro st nonce k s
    simp [FileTokenStore.load, FileTokenStore.save, FileTokenStore.save_to_disk,
      assocLookup_assocInsert]
  · intro st k
    simp [FileTokenStore.load, FileTokenStore.remove,
      FileTokenStore.load_from_disk, assocLookup_assocErase]
  · intro km n1 n2 n3 k1 k2 k3 s1 s2 s3 h12 h13 h23
    simp [emptyFileStore, FileTokenStore.save, FileTokenStore.save_to_disk,
      FileTokenStore.list_accounts, assocInsert, h12, h13, h23]

/-- Witness for C8 with three concrete distinct keys in both
stores. -/
theorem c8_store_lifecycle_witness :
    ("A" : String) ≠ "B"
    ∧ (((MemoryTokenStore.new.save "A" sampleSession).save "B"
          sampleSession).save "C" sampleSession).list_accounts = ["A", "B", "C"]
    ∧ ((((emptyFileStore sampleKeyManager).save
          (List.replicate 12 0) "A" sampleSession).save (List.replicate 12 0)
          "B" sampleSession).save (List.replicate 12 0) "C"
          sampleSession).list_accounts = ["A", "B", "C"] :=
  ⟨by decide,
    c8_store_lifecycle.2.2.1 "A" "B" "C" sampleSession sampleSession
      sampleSession (by decide) (by decide) (by decide),
    c8_store_lifecycle.2.2.2.2.2 sampleKeyManager
      (List.replicate 12 0) (List.replicate 12 0) (List.replicate 12 0)
      "A" "B" "C" sampleSession sampleSession sampleSession
      (by decide) (by decide) (by decide)⟩

/-- C1: `KeyManager::rotate` never installs the freshly generated
key into the manager (it only returns it), and
`FileTokenStore::rotate_key` discards the returned key, so the
re-encryption writes are made under the old key: after a
successful rotation the rewritten account file still decrypts
under the pre-rotation key and fails to decrypt under the new key
that `rotate` returned, contradicting the claimed behaviour
(re-encrypt everything under the brand-new key).  The cache is
cleared as claimed. -/
theorem c1_rotate_key_uses_old_key :
    (∀ (km : KeyManager) (freshKey : List Nat) (now : Int),
        (km.rotate freshKey now).1 = freshKey
        ∧ (km.rotate freshKey now).2.key = km.key)
    ∧ c1Result = Except.ok c1After
    ∧ c1After.key_manager.key = c1OldKey
    ∧ c1OldKey ≠ c1NewKey
    ∧ decrypt c1OldKey c1Blob "uuid1" = Except.ok (sessionToBytes sampleSession)
    ∧ decrypt c1NewKey c1Blob "uuid1" = Except.error RcAuthError.CorruptedStore
    ∧ c1After.cache = [] := by
  refine ⟨fun km freshKey now => ⟨rfl, rfl⟩, ?_, ?_, by decide, ?_, ?_, ?_⟩
  · decide
  · decide
  · decide
  · decide
  · decide

end RcAuth
